import Mathlib

/-!
Shallow embedding of `oauth2_lib/access_control.py`: the attribute-based
access-control engine (condition trees, rule compilation, and the
`is_allowed` decision procedure), together with theorems settling the
specification claims.

Modelling conventions:
* Python `set`s are represented by `List`s; every operation the source
  performs on them (membership, non-empty intersection) is insensitive to
  duplicates and order, which we note where it matters.  Python's set
  iteration order is implementation-defined, so string renderings of sets
  fix the insertion order of the model.
* Python values that may be either an `int` or a `str` (the organization
  codes) are embedded as `PyVal`, whose equality mirrors Python `==`
  across the two types: an int never equals a string.
* The claims mapping is embedded as a typed record of optional fields
  (`OAuthAttrs`); `dict.get` with a default becomes `Option.getD`.
* Exceptions become `Except` values: `BuildError` for errors raised while
  constructing a condition, `CompileError` for errors escaping
  `AccessControl.__init__`, and the `Forbidden` responses of `is_allowed`
  become the `Verdict.deny` constructor carrying the reason string.
-/

/-- A Python scalar that is either an `int` or a `str`; Python `==` across
the two types is always `False`, which `DecidableEq` captures since the
constructors differ. -/
inductive PyVal where
  | pint : Int → PyVal
  | pstr : String → PyVal
deriving DecidableEq

/-- `d.get(k)` on an association list modelling a Python dict. -/
def getOpt (d : List (String × String)) (k : String) : Option String :=
  (d.find? (fun p => decide (p.1 = k))).map (fun p => p.2)

/-- Non-empty set intersection, `bool(a & b)` in the source. -/
def setInterNonempty [DecidableEq α] (a b : List α) : Bool :=
  a.any (fun x => decide (x ∈ b))

/-- Python `repr` of a set of strings in the model's (insertion) order;
the empty set prints as `set()`. -/
def pyStrSetRepr : List String → String
  | [] => "set()"
  | xs => "\x7b" ++ String.intercalate ", " (xs.map (fun s => "\x27" ++ s ++ "\x27")) ++ "\x7d"

/-- Python `repr` of a list of ints, e.g. `[1, 2, 3]`. -/
def pyIntListRepr (xs : List Int) : String :=
  "[" ++ String.intercalate ", " (xs.map (fun i => toString i)) ++ "]"

/-- Insert into a sorted list (helper for Python's `sorted`). -/
def insertSorted (n : Int) : List Int → List Int
  | [] => [n]
  | m :: ms => if n ≤ m then n :: m :: ms else m :: insertSorted n ms

/-- Python `sorted` on ints (insertion sort; stability is irrelevant). -/
def sortInts (l : List Int) : List Int := l.foldr insertSorted []

/-! ## `fnmatch.fnmatch`

Shell-style glob matching as used by `is_allowed` to match endpoint names
against `endpoint_pattern`.  Modelled for patterns made of literal
characters, `*` (any run of characters) and `?` (any single character);
the source's rule patterns and the spec use only these.  Case
normalisation is the identity on POSIX. -/

/-- Glob matching, by recursion on the pattern: `*` matches when the
rest of the pattern matches some suffix of the input (the usual
backtracking formulation, phrased with `List.tails` so the recursion is
structural and kernel-computable). -/
def globMatch : List Char → List Char → Bool
  | [], cs => cs.isEmpty
  | '*' :: ps, cs => (cs.tails).any (fun t => globMatch ps t)
  | '?' :: _, [] => false
  | '?' :: ps, _ :: cs => globMatch ps cs
  | _ :: _, [] => false
  | p :: ps, c :: cs => decide (p = c) && globMatch ps cs

/-- `fnmatch.fnmatch(name, pattern)`. -/
def fnmatch (name pat : String) : Bool := globMatch pat.toList name.toList

/-! ## `UserAttributes`

The claims mapping is a typed record of optional fields, one per key the
source reads; an absent field models an absent dict key.  The `scope`
claim may hold either a string or a list of strings, as the source's
`isinstance` test dispatches on exactly that. -/

/-- The `scope` claim value: a whitespace-joined string or a token list. -/
inductive ScopeVal where
  | str : String → ScopeVal
  | strList : List String → ScopeVal
deriving DecidableEq

/-- The raw claims mapping (`oauth_attrs` in the source). -/
structure OAuthAttrs where
  active : Option Bool
  authenticating_authority : Option String
  display_name : Option String
  edu_person_principal_name : Option String
  email : Option String
  edumember_is_member_of : Option (List String)
  eduperson_entitlement : Option (List String)
  scope : Option ScopeVal
  user_name : Option String
  unspecified_id : Option String
deriving DecidableEq

/-- `UserAttributes` wraps the raw claims mapping. -/
structure UserAttributes where
  oauth_attrs : OAuthAttrs
deriving DecidableEq

/-- URN constants of the four leaf condition classes. -/
def SABRoles.URN : String := "urn:mace:surfnet.nl:surfnet.nl:sab:role:"

def Teams.URN : String := "urn:collab:group:surfteams.nl:nl:surfnet:diensten:"

def TargetOrganizations.URN : String := "urn:mace:surfnet.nl:surfnet.nl:sab:organizationCode:"

def OrganizationGUID.URN : String := "urn:mace:surfnet.nl:surfnet.nl:sab:organizationGUID:"

/-- `p.startswith(q)` on character lists (Python strings are sequences
of code points, as are Lean `Char` lists). -/
def charsIsPrefixOf : List Char → List Char → Bool
  | [], _ => true
  | _ :: _, [] => false
  | p :: ps, c :: cs => decide (p = c) && charsIsPrefixOf ps cs

/-- Python `s.split(" ")`: split on every single space, keeping empty
tokens; the empty string splits to `[""]`. -/
def pySplitSpace : List Char → List String
  | [] => [""]
  | c :: cs =>
    match pySplitSpace cs with
    | [] => if c = ' ' then ["", ""] else [String.mk [c]]
    | t :: ts =>
      if c = ' ' then "" :: t :: ts
      else String.mk (c :: t.toList) :: ts

/-- `{urn[length:] for urn in urns if urn.startswith(pre)}`: keep the
entries starting with the URN prefix and drop that prefix (slicing counts
characters in both Python and Lean); the result is a set, modelled as a
list. -/
def stripPrefixed (pre : String) (urns : List String) : List String :=
  urns.filterMap (fun urn =>
    if charsIsPrefixOf pre.toList urn.toList then
      some (String.mk (urn.toList.drop pre.toList.length))
    else none)

def UserAttributes.active (u : UserAttributes) : Bool :=
  u.oauth_attrs.active.getD false

def UserAttributes.authenticating_authority (u : UserAttributes) : String :=
  u.oauth_attrs.authenticating_authority.getD ""

def UserAttributes.display_name (u : UserAttributes) : String :=
  u.oauth_attrs.display_name.getD ""

def UserAttributes.principal_name (u : UserAttributes) : String :=
  u.oauth_attrs.edu_person_principal_name.getD ""

def UserAttributes.email (u : UserAttributes) : String :=
  u.oauth_attrs.email.getD ""

def UserAttributes.memberships (u : UserAttributes) : List String :=
  u.oauth_attrs.edumember_is_member_of.getD []

def UserAttributes.entitlements (u : UserAttributes) : List String :=
  u.oauth_attrs.eduperson_entitlement.getD []

def UserAttributes.roles (u : UserAttributes) : List String :=
  stripPrefixed SABRoles.URN u.entitlements

/-- `scopes`: a list-valued claim is taken as the token set; otherwise the
string claim (defaulting to `""` when absent) is split on single spaces.
Note Python's `"".split(" ")` is `[""]`. -/
def UserAttributes.scopes (u : UserAttributes) : List String :=
  match u.oauth_attrs.scope with
  | some (.strList xs) => xs
  | some (.str s) => pySplitSpace s.toList
  | none => pySplitSpace "".toList

def UserAttributes.teams (u : UserAttributes) : List String :=
  stripPrefixed Teams.URN u.memberships

def UserAttributes.organization_codes (u : UserAttributes) : List String :=
  stripPrefixed TargetOrganizations.URN u.entitlements

def UserAttributes.organization_guids (u : UserAttributes) : List String :=
  stripPrefixed OrganizationGUID.URN u.entitlements

def UserAttributes.user_name (u : UserAttributes) : String :=
  match u.oauth_attrs.user_name with
  | some s => s
  | none => u.oauth_attrs.unspecified_id.getD ""

/-! ## Static lookup tables of the leaf conditions -/

def TargetOrganizations.institutions : List Int := [1, 2, 3, 4, 9, 14, 18, 19, 22, 23, 24]

def TargetOrganizations.service_providers : List Int := [11, 26]

def TargetOrganizations.international_partners : List Int := [13]

def TargetOrganizations.colo_providers : List Int := [6, 10]

def TargetOrganizations.other : List Int :=
  [5, 7, 8, 11, 12, 15, 16, 17, 20, 21, 25, 27, 28, 29, 30, 31, 32, 100]

/-- `TargetOrganizations.valid`: named groups of organization codes; a
missing key is a `KeyError` in Python, hence `Option`. -/
def TargetOrganizations.valid : String → Option (List Int)
  | "institutions" => some TargetOrganizations.institutions
  | "service_providers" => some TargetOrganizations.service_providers
  | "international_partners" => some TargetOrganizations.international_partners
  | "colo_providers" => some TargetOrganizations.colo_providers
  | "other" => some TargetOrganizations.other
  | _ => none

def SABRoles.infrabeheerder : String := "Infrabeheerder"

def SABRoles.infraverantwoordelijke : String := "Infraverantwoordelijke"

def SABRoles.superuserro : String := "SuperuserRO"

/-- `SABRoles.valid`: the fixed alias table of role names. -/
def SABRoles.valid : String → Option String
  | "infrabeheerder" => some SABRoles.infrabeheerder
  | "infraverantwoordelijke" => some SABRoles.infraverantwoordelijke
  | "Infrabeheerder" => some SABRoles.infrabeheerder
  | "Infraverantwoordelijke" => some SABRoles.infraverantwoordelijke
  | "SuperuserRO" => some SABRoles.superuserro
  | "superuserro" => some SABRoles.superuserro
  | _ => none

def Teams.admins : String := "automation-admins"

def Teams.changes : String := "network-changes"

def Teams.fls : String := "noc-fls"

def Teams.lir : String := "network-lir"

def Teams.noc : String := "noc-engineers"

def Teams.readonly : String := "automation-read-only"

def Teams.superuserro : String := "noc_superuserro_team_for_netwerkdashboard"

def Teams.support : String := "customersupport"

def Teams.ten : String := "ten"

/-- `Teams.valid`: the fixed alias table of team names. -/
def Teams.valid : String → Option String
  | "admins" => some Teams.admins
  | "automation-admins" => some Teams.admins
  | "automation-read-only" => some Teams.readonly
  | "customersupport" => some Teams.support
  | "fls" => some Teams.fls
  | "klantsupport" => some Teams.support
  | "lir" => some Teams.lir
  | "network-changes" => some Teams.changes
  | "network-lir" => some Teams.lir
  | "noc" => some Teams.noc
  | "noc-engineers" => some Teams.noc
  | "noc-fls" => some Teams.fls
  | "readonly" => some Teams.readonly
  | "superuserro" => some Teams.superuserro
  | "support" => some Teams.support
  | "ten" => some Teams.ten
  | _ => none

/-- `OrganizationGUID.valid`: the allowed `where` locations. -/
def OrganizationGUID.valid : List String := ["path", "query", "json"]

/-! ## Requests

The fields of the (Flask-style) request object that the engine reads:
`endpoint` / `base_url` and `method` for rule matching, `view_args`
(path parameters), `args` (query parameters) and `json` (the parsed
body) for the `OrganizationGUID` condition.  `json = none` models both
an absent body and one that fails to parse, the two cases in which
Flask's `request.json` is `None`. -/
structure Request where
  endpoint : String
  base_url : String
  method : String
  view_args : List (String × String)
  args : List (String × String)
  json : Option (List (String × String))
deriving DecidableEq

/-- `current_request.endpoint or current_request.base_url`: the empty
string models a falsy `endpoint`. -/
def Request.effectiveEndpoint (r : Request) : String :=
  if r.endpoint = "" then r.base_url else r.endpoint

/-! ## Compiled condition trees

One constructor per concrete `AbstractCondition` subclass, holding what
the corresponding `__init__` stores on the instance. -/

inductive Condition where
  | TargetOrganizations (target_organizations : List Int)
  | SABRoles (roles : List String)
  | Teams (teams : List String)
  | Scopes (scopes : List String)
  | AnyOf (conditions : List Condition)
  | AllOf (conditions : List Condition)
  | OrganizationGUID (whereLoc : String) (param : String)

mutual

/-- `test(user_attributes, current_request)` of each condition class.
`TargetOrganizations.test` intersects the set of stripped URN suffixes
(strings) with the stored code set (ints); the `PyVal` embedding keeps
Python's cross-type equality (`"2" == 2` is `False`).  The combinators
are Python's `True in (...)` / `False not in (...)` over a generator,
i.e. short-circuiting any/all. -/
def Condition.test (u : UserAttributes) (r : Request) : Condition → Bool
  | .TargetOrganizations codes =>
      setInterNonempty (u.organization_codes.map PyVal.pstr) (codes.map PyVal.pint)
  | .SABRoles roles => setInterNonempty u.roles roles
  | .Teams teamNames => setInterNonempty u.teams teamNames
  | .Scopes scopeNames => setInterNonempty u.scopes scopeNames
  | .AnyOf cs => Condition.testAny u r cs
  | .AllOf cs => Condition.testAll u r cs
  | .OrganizationGUID whereLoc param =>
      if whereLoc = "path" then
        match getOpt r.view_args param with
        | some v => decide (v ∈ u.organization_guids)
        | none => false
      else if whereLoc = "query" then
        match getOpt r.args param with
        | some v => decide (v ∈ u.organization_guids)
        | none => false
      else if whereLoc = "json" then
        match r.json with
        | none => true
        | some body =>
          match getOpt body param with
          | some v => decide (v ∈ u.organization_guids)
          | none => false
      else false

/-- `True in (condition.test(...) for condition in conditions)`. -/
def Condition.testAny (u : UserAttributes) (r : Request) : List Condition → Bool
  | [] => false
  | c :: cs => Condition.test u r c || Condition.testAny u r cs

/-- `False not in (condition.test(...) for condition in conditions)`. -/
def Condition.testAll (u : UserAttributes) (r : Request) : List Condition → Bool
  | [] => true
  | c :: cs => Condition.test u r c && Condition.testAll u r cs

end

mutual

/-- `__str__` of each condition class (the deny-reason rendering).  Set
renderings fix the model's insertion order; `TargetOrganizations` sorts
its codes exactly as `sorted(self.target_organizations)` does (the
Python value is a set, so sorted-unique). -/
def Condition.str : Condition → String
  | .TargetOrganizations codes =>
      "CODE in " ++ TargetOrganizations.URN ++
        "CODE in eduperson_entitlements should be one of " ++
        pyIntListRepr (sortInts codes.dedup)
  | .SABRoles roles =>
      "ROLE in " ++ SABRoles.URN ++ "ROLE in eduperson_entitlements should be one of " ++
        pyStrSetRepr roles
  | .Teams teamNames => "TEAM in " ++ Teams.URN ++ "TEAM should be one of " ++ pyStrSetRepr teamNames
  | .Scopes scopeNames => "Scope must be one of the following: " ++ pyStrSetRepr scopeNames
  | .AnyOf cs => "Any of the following conditions should apply:\n" ++ Condition.strJoin cs
  | .AllOf cs => "All of the following conditions should apply:\n" ++ Condition.strJoin cs
  | .OrganizationGUID whereLoc param =>
      "Parameter " ++ param ++ " in the request " ++ whereLoc ++
        " should be in your organization GUID (\x27" ++ OrganizationGUID.URN ++ "\x27)"

/-- `"\n".join(str(c) for c in conditions)`. -/
def Condition.strJoin : List Condition → String
  | [] => ""
  | [c] => Condition.str c
  | c :: cs => Condition.str c ++ "\n" ++ Condition.strJoin cs

end

/-! ## Declarative condition definitions and their compilation

`CondDef` is the raw configuration of one condition: the class name is
the constructor, the payload is the `options` value.  Python's
`conditions` mappings are keyed by class name, so sibling entries have
distinct names; the model uses lists of named definitions.
`OrganizationGUID`'s options dict may lack either key, hence the two
`Option` fields. -/

inductive CondDef where
  | TargetOrganizations (options : List String)
  | SABRoles (options : List String)
  | Teams (options : List String)
  | Scopes (options : List String)
  | AnyOf (options : List CondDef)
  | AllOf (options : List CondDef)
  | OrganizationGUID (whereOpt : Option String) (parameterOpt : Option String)

/-- The exceptions a condition `__init__` can raise: `KeyError` (carrying
the missing key), `AssertionError` (carrying the assert message), and
`TypeError` (from `reduce` over an empty iterable). -/
inductive BuildError where
  | keyError (key : String)
  | assertionError (msg : String)
  | typeError (msg : String)
deriving DecidableEq

/-- The per-option lookups of `TargetOrganizations.__init__`, left to
right; the first unknown group name raises `KeyError`. -/
def TargetOrganizations.lookupGroups : List String → Except BuildError (List (List Int))
  | [] => .ok []
  | o :: os =>
    match TargetOrganizations.valid o with
    | none => .error (BuildError.keyError o)
    | some codes =>
      match TargetOrganizations.lookupGroups os with
      | .error e => .error e
      | .ok gs => .ok (codes :: gs)

/-- `TargetOrganizations.__init__`: `reduce(set.union, (set(valid[o]) for
o in options))`.  An unknown group name raises `KeyError`; an empty
`options` makes `reduce` raise `TypeError`.  The set union is the
concatenation of the groups (duplicates are harmless under the list-as-
set reading). -/
def TargetOrganizations.build (options : List String) : Except BuildError (List Int) :=
  match TargetOrganizations.lookupGroups options with
  | .error e => .error e
  | .ok [] => .error (BuildError.typeError "reduce() of empty iterable with no initial value")
  | .ok gs => .ok (gs.foldl (fun acc g => acc ++ g) [])

/-- `SABRoles.__init__`: `{valid[option] for option in options}`; the
first unknown alias raises `KeyError`.  An empty list builds the empty
set. -/
def SABRoles.build : List String → Except BuildError (List String)
  | [] => .ok []
  | o :: os =>
    match SABRoles.valid o with
    | none => .error (BuildError.keyError o)
    | some role =>
      match SABRoles.build os with
      | .error e => .error e
      | .ok roles => .ok (role :: roles)

/-- `Teams.__init__`: same shape as `SABRoles.__init__`. -/
def Teams.build : List String → Except BuildError (List String)
  | [] => .ok []
  | o :: os =>
    match Teams.valid o with
    | none => .error (BuildError.keyError o)
    | some t =>
      match Teams.build os with
      | .error e => .error e
      | .ok ts => .ok (t :: ts)

/-- `OrganizationGUID.__init__`: `options["where"]` (KeyError if absent),
then the assert on the valid locations, then `options["parameter"]`. -/
def OrganizationGUID.build (whereOpt parameterOpt : Option String) :
    Except BuildError Condition :=
  match whereOpt with
  | none => Except.error (BuildError.keyError "where")
  | some w =>
    if w ∈ OrganizationGUID.valid then
      match parameterOpt with
      | none => Except.error (BuildError.keyError "parameter")
      | some p => Except.ok (Condition.OrganizationGUID w p)
    else
      Except.error (BuildError.assertionError
        ("The \x27where\x27 option should be one of " ++ pyStrSetRepr OrganizationGUID.valid))

mutual

/-- `AbstractCondition.concrete_condition(name, options)` followed by the
class's `__init__`; combinators build their children in order and the
first child error propagates. -/
def buildCondition : CondDef → Except BuildError Condition
  | .TargetOrganizations opts =>
    match TargetOrganizations.build opts with
    | .ok codes => .ok (Condition.TargetOrganizations codes)
    | .error e => .error e
  | .SABRoles opts =>
    match SABRoles.build opts with
    | .ok roles => .ok (Condition.SABRoles roles)
    | .error e => .error e
  | .Teams opts =>
    match Teams.build opts with
    | .ok ts => .ok (Condition.Teams ts)
    | .error e => .error e
  | .Scopes opts => .ok (Condition.Scopes opts)
  | .AnyOf opts =>
    match buildConditionList opts with
    | .ok cs => .ok (Condition.AnyOf cs)
    | .error e => .error e
  | .AllOf opts =>
    match buildConditionList opts with
    | .ok cs => .ok (Condition.AllOf cs)
    | .error e => .error e
  | .OrganizationGUID w p => OrganizationGUID.build w p

/-- Children of `AnyOf`/`AllOf`, built left to right. -/
def buildConditionList : List CondDef → Except BuildError (List Condition)
  | [] => .ok []
  | d :: ds =>
    match buildCondition d with
    | .error e => .error e
    | .ok c =>
      match buildConditionList ds with
      | .error e => .error e
      | .ok cs => .ok (c :: cs)

end

/-! ## Rule definitions and `AccessControl.__init__` -/

/-- One entry of `security_definitions["rules"]`; each field is `none`
when the corresponding dict key is absent. -/
structure RuleDef where
  endpoint : Option String
  methods : Option (List String)
  conditions : Option (List CondDef)

/-- `security_definitions`: either `None` or a dict that may lack the
`"rules"` key. -/
structure SecurityConfig where
  rules : Option (List RuleDef)

/-- A compiled rule: `(endpoint, http_methods, checker)`. -/
abbrev Rules := List (String × List String × Condition)

/-- Errors escaping `AccessControl.__init__`: `InvalidRuleDefinition`
(message, rule position, raw definition) for caught `KeyError` /
`AssertionError`; a raw `TypeError` (from `TargetOrganizations` with an
empty options list) and a raw `NameError` (the `checker` local unbound
when `conditions` is an empty mapping in the first rule) are *not*
wrapped. -/
inductive CompileError where
  | invalidRuleDefinition (message : String) (counter : Nat) (definition : RuleDef)
  | typeError (msg : String)
  | nameError (msg : String)

def AccessControl.VALID_HTTP_METHODS : List String :=
  ["*", "DELETE", "PATCH", "GET", "HEAD", "POST", "PUT"]

/-- Wrap a condition-construction error the way the `try/except` blocks
in `AccessControl.__init__` do: `KeyError` becomes `Missing option
'<key>'.` (Python's `str(KeyError(k))` is the repr of `k`),
`AssertionError` keeps its message, and `TypeError` is not caught. -/
def wrapBuildError (counter : Nat) (d : RuleDef) : BuildError → CompileError
  | .keyError k =>
    CompileError.invalidRuleDefinition ("Missing option \x27" ++ k ++ "\x27.") counter d
  | .assertionError msg => CompileError.invalidRuleDefinition msg counter d
  | .typeError msg => CompileError.typeError msg

/-- One iteration of the compilation loop in `AccessControl.__init__`.
`lastChecker` is the current value of the `checker` local: when
`conditions` is an empty mapping the loop body never runs and the
previous iteration's checker is silently reused (or `NameError` is
raised on the first rule). -/
def AccessControl.compileRule (counter : Nat) (lastChecker : Option Condition) (d : RuleDef) :
    Except CompileError (String × List String × Condition) :=
  match d.endpoint with
  | none => .error (CompileError.invalidRuleDefinition "Missing endpoint" counter d)
  | some endpoint =>
    match d.methods with
    | none => .error (CompileError.invalidRuleDefinition "Missing HTTP methods" counter d)
    | some http_methods =>
      match http_methods.find? (fun m => decide (m ∉ AccessControl.VALID_HTTP_METHODS)) with
      | some m =>
        .error (CompileError.invalidRuleDefinition
          ("Not a valid HTTP method \x27" ++ m ++ "\x27") counter d)
      | none =>
        match d.conditions with
        | none => .error (CompileError.invalidRuleDefinition "Missing conditions or options" counter d)
        | some conds =>
          if 1 < conds.length then
            match buildConditionList conds with
            | .ok cs => .ok (endpoint, http_methods, Condition.AllOf cs)
            | .error e => .error (wrapBuildError counter d e)
          else
            match conds with
            | [cd] =>
              match buildCondition cd with
              | .ok c => .ok (endpoint, http_methods, c)
              | .error e => .error (wrapBuildError counter d e)
            | _ =>
              match lastChecker with
              | some c => .ok (endpoint, http_methods, c)
              | none =>
                .error (CompileError.nameError
                  "local variable \x27checker\x27 referenced before assignment")

/-- The whole loop of `AccessControl.__init__` over the definitions; a
failure at any position aborts the load with that error. -/
def AccessControl.compileRules (counter : Nat) (lastChecker : Option Condition) :
    List RuleDef → Except CompileError Rules
  | [] => .ok []
  | d :: ds =>
    match AccessControl.compileRule counter lastChecker d with
    | .error e => .error e
    | .ok rule =>
      match AccessControl.compileRules (counter + 1) (some rule.2.2) ds with
      | .error e => .error e
      | .ok rest => .ok (rule :: rest)

/-- `AccessControl.__init__`: a `None` configuration or one without a
`"rules"` key yields the empty rule list without error. -/
def AccessControl.compile (security_definitions : Option SecurityConfig) :
    Except CompileError Rules :=
  match security_definitions with
  | none => .ok []
  | some cfg =>
    match cfg.rules with
    | none => .ok []
    | some defs => AccessControl.compileRules 0 none defs

/-! ## `AccessControl.is_allowed` -/

/-- The outcome of `is_allowed`: a normal return is `allow`, a raised
`Forbidden(reason)` is `deny reason`. -/
inductive Verdict where
  | allow
  | deny (reason : String)
deriving DecidableEq

/-- The matching loop of `is_allowed`: the checkers of the rules whose
endpoint pattern glob-matches the effective endpoint and whose methods
contain `"*"` or the request method, in rule order. -/
def AccessControl.matches (rules : Rules) (r : Request) : List Condition :=
  (List.filter (fun rule =>
      fnmatch r.effectiveEndpoint rule.1 &&
        (rule.2.1.contains "*" || rule.2.1.contains r.method)) rules).map
    (fun rule => rule.2.2)

/-- `AccessControl.is_allowed` (the `decide` of the spec).  The source
computes `matches` once into a local; the model names that list
`AccessControl.matches` and refers to it directly. -/
def AccessControl.is_allowed (rules : Rules) (current_user : UserAttributes)
    (current_request : Request) : Verdict :=
  if List.isEmpty rules then Verdict.deny "No security rules found"
  else if 1 < (AccessControl.matches rules current_request).length then
    if (AccessControl.matches rules current_request).any
        (fun c => c.test current_user current_request) then Verdict.allow
    else
      Verdict.deny (String.intercalate "\n"
        ((AccessControl.matches rules current_request).map Condition.str))
  else
    match AccessControl.matches rules current_request with
    | [checker] =>
      if checker.test current_user current_request then Verdict.allow
      else Verdict.deny checker.str
    | _ =>
      Verdict.deny ("No rules matched endpoint " ++ current_request.effectiveEndpoint ++
        " and HTTP method " ++ current_request.method)

/-! ## Helper lemmas -/

/-- `testAny` is `List.any` over the children. -/
theorem Condition.testAny_eq_any (u : UserAttributes) (r : Request) (cs : List Condition) :
    Condition.testAny u r cs = cs.any (fun c => c.test u r) := by
  induction cs with
  | nil => rfl
  | cons c cs ih => simp [Condition.testAny, ih]

/-- `testAll` is `List.all` over the children. -/
theorem Condition.testAll_eq_all (u : UserAttributes) (r : Request) (cs : List Condition) :
    Condition.testAll u r cs = cs.all (fun c => c.test u r) := by
  induction cs with
  | nil => rfl
  | cons c cs ih => simp [Condition.testAll, ih]

/-- A Python string is never an element of a set of Python ints. -/
theorem pstr_not_mem_map_pint (s : String) (l : List Int) :
    PyVal.pstr s ∉ l.map PyVal.pint := by
  simp [List.mem_map]

/-! ## Demonstration claims mappings and requests -/

/-- A claims mapping with every consumed key absent. -/
def emptyClaims : OAuthAttrs := ⟨none, none, none, none, none, none, none, none, none, none⟩

/-- A principal whose entitlements carry organization code `2`. -/
def orgCodeUser : UserAttributes :=
  ⟨⟨none, none, none, none, none, none,
    some ["urn:mace:surfnet.nl:surfnet.nl:sab:organizationCode:2"], none, none, none⟩⟩

/-- A simple GET request with no parameters and no body. -/
def plainRequest : Request := ⟨"orders.get", "http://localhost/orders", "GET", [], [], none⟩

/-! ## Claim theorems -/

/-- C1: code bug.  `TargetOrganizations.test` intersects
`user_attributes.organization_codes` — strings stripped from the
entitlement URNs — with `self.target_organizations`, a set of Python
ints compiled from the named groups.  Python `==` between a string and
an int is always `False`, so the intersection is empty for every view
and every compiled condition: the condition can never test true, while
the claim (and the class's own `__str__` rendering) say a matching code
should grant access.  First conjunct: the test is `false` for every
view, request, and code set; the remaining conjuncts evaluate the
failing input — a view holding organization code `"2"` against the
compiled `institutions` group containing `2`. -/
theorem targetOrganizations_code_type_mismatch (u : UserAttributes) (r : Request)
    (codes : List Int) :
    Condition.test u r (Condition.TargetOrganizations codes) = false ∧
    TargetOrganizations.build ["institutions"] = Except.ok TargetOrganizations.institutions ∧
    UserAttributes.organization_codes orgCodeUser = ["2"] ∧
    (2 : Int) ∈ TargetOrganizations.institutions ∧
    Condition.test orgCodeUser plainRequest
      (Condition.TargetOrganizations TargetOrganizations.institutions) = false := by
  refine ⟨?_, rfl, rfl, by decide, rfl⟩
  simp only [Condition.test, setInterNonempty, List.any_eq_false, decide_eq_true_eq]
  intro x hx
  obtain ⟨s, _, rfl⟩ := List.mem_map.mp hx
  exact pstr_not_mem_map_pint s codes

/-- C2 counterexample: with no `scope` entry in the claims mapping,
`UserAttributes.scopes` is `set("".split(" "))`, the singleton set
containing the empty string — not the empty set the claim states. -/
theorem scopes_default_not_empty_cex :
    UserAttributes.scopes ⟨emptyClaims⟩ = [""] ∧ ([""] : List String) ≠ [] :=
  ⟨rfl, by decide⟩

/-- C2 (amended): every attribute accessor is total (the embedding is a
total function on the typed claims record, so no accessor raises), and
for every claims mapping, whenever an underlying claim key is absent the
accessors reading it return the empty collection or the empty string —
except `scopes`: with no `scope` entry the accessor returns the
singleton set containing the empty string, because Python's
`"".split(" ")` is `[""]`.  Each conjunct assumes only the absence of
the key(s) its accessor reads, so the defaults hold key by key on
arbitrary mappings (`userName` reads both `user_name` and
`unspecified_id` and is empty when both are absent). -/
theorem userAttributes_defaults_amended (u : UserAttributes) :
    (u.oauth_attrs.eduperson_entitlement = none →
      u.entitlements = [] ∧ u.roles = [] ∧ u.organization_codes = [] ∧
        u.organization_guids = []) ∧
    (u.oauth_attrs.edumember_is_member_of = none → u.memberships = [] ∧ u.teams = []) ∧
    (u.oauth_attrs.scope = none → u.scopes = [""]) ∧
    (u.oauth_attrs.user_name = none → u.oauth_attrs.unspecified_id = none →
      u.user_name = "") ∧
    (u.oauth_attrs.authenticating_authority = none → u.authenticating_authority = "") ∧
    (u.oauth_attrs.display_name = none → u.display_name = "") ∧
    (u.oauth_attrs.edu_person_principal_name = none → u.principal_name = "") ∧
    (u.oauth_attrs.email = none → u.email = "") := by
  refine ⟨?_, ?_, ?_, ?_, ?_, ?_, ?_, ?_⟩
  · intro h
    simp [UserAttributes.entitlements, UserAttributes.roles,
      UserAttributes.organization_codes, UserAttributes.organization_guids, stripPrefixed, h]
  · intro h
    simp [UserAttributes.memberships, UserAttributes.teams, stripPrefixed, h]
  · intro h
    simp [UserAttributes.scopes, pySplitSpace, h]
  · intro h1 h2
    simp [UserAttributes.user_name, h1, h2]
  · intro h
    simp [UserAttributes.authenticating_authority, h]
  · intro h
    simp [UserAttributes.display_name, h]
  · intro h
    simp [UserAttributes.principal_name, h]
  · intro h
    simp [UserAttributes.email, h]

/-- A claims mapping with some keys present (active, display name, an
entitlement, a scope string) and the rest absent. -/
def mixedClaims : OAuthAttrs :=
  ⟨some true, none, some "Jane Doe", none, none, none,
    some ["urn:mace:surfnet.nl:surfnet.nl:sab:role:Infrabeheerder"],
    some (.str "read write"), none, none⟩

/-- C2 witness: the amended claim evaluated on a mixed mapping (each
absent key defaults while present keys keep their values) and on the
empty mapping for the scopes singleton. -/
theorem userAttributes_defaults_amended_witness :
    UserAttributes.teams ⟨mixedClaims⟩ = [] ∧
    UserAttributes.user_name ⟨mixedClaims⟩ = "" ∧
    UserAttributes.email ⟨mixedClaims⟩ = "" ∧
    UserAttributes.scopes ⟨emptyClaims⟩ = [""] := by
  have h1 := userAttributes_defaults_amended ⟨mixedClaims⟩
  have h2 := userAttributes_defaults_amended ⟨emptyClaims⟩
  exact ⟨(h1.2.1 rfl).2, h1.2.2.2.1 rfl rfl, h1.2.2.2.2.2.2.2 rfl, h2.2.2.1 rfl⟩

/-- C6: `AnyOf.test` is true iff at least one child tests true (so the
empty `AnyOf` is false) and `AllOf.test` is true iff no child tests
false (so the empty `AllOf` is true). -/
theorem combinator_semantics (cs : List Condition) (u : UserAttributes) (r : Request) :
    ((Condition.AnyOf cs).test u r = true ↔ ∃ c ∈ cs, c.test u r = true) ∧
    ((Condition.AllOf cs).test u r = true ↔ ¬ ∃ c ∈ cs, c.test u r = false) ∧
    (Condition.AnyOf []).test u r = false ∧
    (Condition.AllOf []).test u r = true := by
  refine ⟨?_, ?_, rfl, rfl⟩
  · rw [show (Condition.AnyOf cs).test u r = Condition.testAny u r cs from rfl,
      Condition.testAny_eq_any, List.any_eq_true]
  · rw [show (Condition.AllOf cs).test u r = Condition.testAll u r cs from rfl,
      Condition.testAll_eq_all, List.all_eq_true]
    constructor
    · rintro h ⟨c, hc, hfalse⟩
      rw [h c hc] at hfalse
      cases hfalse
    · intro h c hc
      cases ht : c.test u r with
      | true => rfl
      | false => exact absurd ⟨c, hc, ht⟩ h

/-- C7: an `OrganizationGUID` condition located in the JSON body passes
unconditionally when the body is absent or unparseable (`request.json`
is `None`), and otherwise tests whether the body's value for the
configured parameter is one of the view's organization GUIDs. -/
theorem organizationGUID_json_passthrough (param : String) (u : UserAttributes) (r : Request) :
    (r.json = none → (Condition.OrganizationGUID "json" param).test u r = true) ∧
    (∀ body, r.json = some body →
      ((Condition.OrganizationGUID "json" param).test u r = true ↔
        ∃ v, getOpt body param = some v ∧ v ∈ u.organization_guids)) := by
  constructor
  · intro h
    simp [Condition.test, h]
  · intro body h
    simp only [Condition.test, h]
    cases hv : getOpt body param with
    | some v => simp [hv]
    | none => simp [hv]

/-- A principal holding organization GUID `abc-123`. -/
def guidUser : UserAttributes :=
  ⟨⟨none, none, none, none, none, none,
    some ["urn:mace:surfnet.nl:surfnet.nl:sab:organizationGUID:abc-123"], none, none, none⟩⟩

/-- A POST request whose body is absent or failed to parse. -/
def jsonlessRequest : Request := ⟨"orders.create", "http://localhost/", "POST", [], [], none⟩

/-- A POST request whose parsed body binds `org` to `abc-123`. -/
def jsonRequest : Request :=
  ⟨"orders.create", "http://localhost/", "POST", [], [], some [("org", "abc-123")]⟩

/-- C7 witness: the pass-through on a missing body and the membership
test on a parsed body, both evaluated concretely. -/
theorem organizationGUID_json_passthrough_witness :
    (Condition.OrganizationGUID "json" "org").test guidUser jsonlessRequest = true ∧
    (Condition.OrganizationGUID "json" "org").test guidUser jsonRequest = true :=
  ⟨(organizationGUID_json_passthrough "org" guidUser jsonlessRequest).1 rfl,
   ((organizationGUID_json_passthrough "org" guidUser jsonRequest).2 [("org", "abc-123")]
       rfl).mpr ⟨"abc-123", rfl, by decide⟩⟩

/-- C8: an empty rule set denies every request with the fixed reason. -/
theorem empty_ruleset_denies (u : UserAttributes) (r : Request) :
    AccessControl.is_allowed [] u r = Verdict.deny "No security rules found" := rfl

/-- C10: a `None` configuration, or one without a `rules` key, compiles
without error to the empty rule set, and every decision on that rule set
is the fixed `No security rules found` denial. -/
theorem missing_config_empty_rules_deny (u : UserAttributes) (r : Request) :
    AccessControl.compile none = Except.ok [] ∧
    AccessControl.compile (some ⟨none⟩) = Except.ok [] ∧
    AccessControl.is_allowed [] u r = Verdict.deny "No security rules found" :=
  ⟨rfl, rfl, rfl⟩

/-- Unfolding of the matching loop on a cons cell. -/
theorem matches_cons (rule : String × List String × Condition) (rules : Rules) (r : Request) :
    AccessControl.matches (rule :: rules) r =
      if fnmatch r.effectiveEndpoint rule.1 &&
          (rule.2.1.contains "*" || rule.2.1.contains r.method) then
        rule.2.2 :: AccessControl.matches rules r
      else AccessControl.matches rules r := by
  unfold AccessControl.matches
  rw [List.filter_cons]
  cases h : fnmatch r.effectiveEndpoint rule.1 &&
      (rule.2.1.contains "*" || rule.2.1.contains r.method) <;>
    simp [h]

/-- The matching loop on the empty rule list. -/
theorem matches_nil (r : Request) : AccessControl.matches [] r = [] := rfl

/-- Matching is pointwise, so a permutation of the rules permutes the
candidate list. -/
theorem matches_perm {rules1 rules2 : Rules} (r : Request) (h : rules1.Perm rules2) :
    (AccessControl.matches rules1 r).Perm (AccessControl.matches rules2 r) :=
  (h.filter _).map _

/-- `List.any` is invariant under permutation. -/
theorem perm_any_eq {α : Type} {l1 l2 : List α} (h : l1.Perm l2) (f : α → Bool) :
    l1.any f = l2.any f := by
  rw [Bool.eq_iff_iff, List.any_eq_true, List.any_eq_true]
  constructor
  · rintro ⟨x, hx, hfx⟩
    exact ⟨x, h.mem_iff.mp hx, hfx⟩
  · rintro ⟨x, hx, hfx⟩
    exact ⟨x, h.mem_iff.mpr hx, hfx⟩

/-- C5: a rule set holding the two rules `(p, m, c1)` and `(p, m, c2)`
and a rule set holding the single rule `(p, m, AnyOf [c1, c2])` produce
the same Allow/Deny verdict on every request and view: both rules match
exactly when the single rule does, and the disjunctive multi-candidate
policy coincides with `AnyOf`'s disjunction. -/
theorem two_rules_equivalent_to_anyOf (c1 c2 : Condition) (p : String) (m : List String)
    (u : UserAttributes) (r : Request) :
    AccessControl.is_allowed [(p, m, c1), (p, m, c2)] u r = Verdict.allow ↔
      AccessControl.is_allowed [(p, m, Condition.AnyOf [c1, c2])] u r = Verdict.allow := by
  cases hb : fnmatch r.effectiveEndpoint p && (m.contains "*" || m.contains r.method) with
  | false =>
    have hm1 : AccessControl.matches [(p, m, c1), (p, m, c2)] r = [] := by
      rw [matches_cons, matches_cons, matches_nil, hb]
      simp
    have hm2 : AccessControl.matches [(p, m, Condition.AnyOf [c1, c2])] r = [] := by
      rw [matches_cons, matches_nil, hb]
      simp
    unfold AccessControl.is_allowed
    rw [hm1, hm2]
    simp
  | true =>
    have hm1 : AccessControl.matches [(p, m, c1), (p, m, c2)] r = [c1, c2] := by
      rw [matches_cons, matches_cons, matches_nil, hb]
      simp
    have hm2 : AccessControl.matches [(p, m, Condition.AnyOf [c1, c2])] r =
        [Condition.AnyOf [c1, c2]] := by
      rw [matches_cons, matches_nil, hb]
      simp
    unfold AccessControl.is_allowed
    rw [hm1, hm2]
    cases h1 : c1.test u r <;> cases h2 : c2.test u r <;>
      simp [Condition.test, Condition.testAny, h1, h2]

/-- With more than one candidate, `is_allowed` is the disjunctive branch
of the source: Allow when any candidate tests true, otherwise the joined
denial. -/
theorem is_allowed_multi {rules : Rules} (u : UserAttributes) {r : Request}
    (hlen : 1 < (AccessControl.matches rules r).length) :
    AccessControl.is_allowed rules u r =
      if (AccessControl.matches rules r).any (fun c => c.test u r) then Verdict.allow
      else
        Verdict.deny (String.intercalate "\n"
          ((AccessControl.matches rules r).map Condition.str)) := by
  have hne : rules.isEmpty = false := by
    cases rules with
    | nil => simp [AccessControl.matches] at hlen
    | cons a as => rfl
  unfold AccessControl.is_allowed
  rw [hne]
  simp only [Bool.false_eq_true, if_false]
  rw [if_pos hlen]

/-- C4: with more than one candidate rule, the verdict is Allow iff some
candidate's condition tests true; the Allow/Deny verdict is invariant
under permuting the rule set; and when every candidate tests false the
denial reason is the newline-join of all candidates' renderings. -/
theorem multi_candidate_decision (rules rules2 : Rules) (u : UserAttributes) (r : Request)
    (hp : rules2.Perm rules)
    (hlen : 1 < (AccessControl.matches rules r).length) :
    (AccessControl.is_allowed rules u r = Verdict.allow ↔
      ∃ c ∈ AccessControl.matches rules r, c.test u r = true) ∧
    (AccessControl.is_allowed rules2 u r = Verdict.allow ↔
      AccessControl.is_allowed rules u r = Verdict.allow) ∧
    ((∀ c ∈ AccessControl.matches rules r, c.test u r = false) →
      AccessControl.is_allowed rules u r =
        Verdict.deny (String.intercalate "\n"
          ((AccessControl.matches rules r).map Condition.str))) := by
  have hperm : (AccessControl.matches rules2 r).Perm (AccessControl.matches rules r) :=
    matches_perm r hp
  have hlen2 : 1 < (AccessControl.matches rules2 r).length := by
    rw [hperm.length_eq]
    exact hlen
  rw [is_allowed_multi u hlen, is_allowed_multi u hlen2, perm_any_eq hperm]
  refine ⟨?_, ?_, ?_⟩
  · cases hany : (AccessControl.matches rules r).any (fun c => c.test u r) with
    | true =>
      refine iff_of_true (by simp) (List.any_eq_true.mp hany)
    | false =>
      simp only [Bool.false_eq_true, ite_false]
      refine iff_of_false (by simp) ?_
      rintro ⟨c, hc, ht⟩
      rw [List.any_eq_false] at hany
      exact hany c hc ht
  · cases hany : (AccessControl.matches rules r).any (fun c => c.test u r) with
    | true => simp
    | false =>
      simp only [Bool.false_eq_true, ite_false]
      exact iff_of_false (by simp) (by simp)
  · intro hall
    have hany : (AccessControl.matches rules r).any (fun c => c.test u r) = false := by
      rw [List.any_eq_false]
      intro c hc
      rw [hall c hc]
      exact fun hcontra => by cases hcontra
    rw [hany]
    simp

/-- Two rules that both match a DELETE on `admin.delete`: a role the
demo principal lacks and a team it has. -/
def ruleA : String × List String × Condition :=
  ("admin.delete", ["DELETE"], Condition.SABRoles ["Infrabeheerder"])

def ruleB : String × List String × Condition :=
  ("admin.*", ["*"], Condition.Teams ["noc-engineers"])

/-- A principal who is a member of the noc-engineers team only. -/
def nocUser : UserAttributes :=
  ⟨⟨none, none, none, none, none,
    some ["urn:collab:group:surfteams.nl:nl:surfnet:diensten:noc-engineers"], none, none, none,
    none⟩⟩

def deleteRequest : Request := ⟨"admin.delete", "http://localhost/", "DELETE", [], [], none⟩

/-- C4 witness: two candidates, one satisfied, evaluated on a swapped
pair of rules. -/
theorem multi_candidate_decision_witness :
    AccessControl.is_allowed [ruleA, ruleB] nocUser deleteRequest = Verdict.allow :=
  (multi_candidate_decision [ruleA, ruleB] [ruleB, ruleA] nocUser deleteRequest
      (List.Perm.swap ruleA ruleB []) (by decide)).1.mpr
    ⟨Condition.Teams ["noc-engineers"],
      List.mem_cons_of_mem _ (List.mem_cons_self _ _), by decide⟩


/-- A rule that compiles successfully carries exactly the configured
methods, all of which passed the vocabulary scan. -/
theorem compileRule_methods_valid {counter : Nat} {last : Option Condition} {d : RuleDef}
    {rule : String × List String × Condition}
    (h : AccessControl.compileRule counter last d = .ok rule) :
    ∀ m ∈ rule.2.1, m ∈ AccessControl.VALID_HTTP_METHODS := by
  unfold AccessControl.compileRule at h
  split at h
  · cases h
  · split at h
    · cases h
    · split at h
      · cases h
      · rename_i hfind
        split at h
        · cases h
        · split at h
          · split at h
            · injection h with h2
              subst h2
              intro m hm
              have := List.find?_eq_none.mp hfind m hm
              simpa using this
            · cases h
          · split at h
            · split at h
              · injection h with h2
                subst h2
                intro m hm
                have := List.find?_eq_none.mp hfind m hm
                simpa using this
              · cases h
            · split at h
              · injection h with h2
                subst h2
                intro m hm
                have := List.find?_eq_none.mp hfind m hm
                simpa using this
              · cases h

/-- Unfolding of the compilation loop on a cons cell. -/
theorem compileRules_cons (n : Nat) (last : Option Condition) (d : RuleDef)
    (ds : List RuleDef) :
    AccessControl.compileRules n last (d :: ds) =
      match AccessControl.compileRule n last d with
      | .error e => .error e
      | .ok rule =>
        match AccessControl.compileRules (n + 1) (some rule.2.2) ds with
        | .error e => .error e
        | .ok rest => .ok (rule :: rest) := rfl

/-- A successful compilation yields one rule per definition (nothing is
dropped), and every rule's methods are from the fixed vocabulary. -/
theorem compileRules_ok {defs : List RuleDef} :
    ∀ {n : Nat} {last : Option Condition} {rs : Rules},
      AccessControl.compileRules n last defs = .ok rs →
      rs.length = defs.length ∧
        ∀ rule ∈ rs, ∀ m ∈ rule.2.1, m ∈ AccessControl.VALID_HTTP_METHODS := by
  induction defs with
  | nil =>
    intro n last rs h
    injection h with h2
    subst h2
    exact ⟨rfl, by intro rule hr; cases hr⟩
  | cons d ds ih =>
    intro n last rs h
    rw [compileRules_cons] at h
    cases hrule : AccessControl.compileRule n last d with
    | error e =>
      rw [hrule] at h
      cases h
    | ok rule =>
      rw [hrule] at h
      dsimp only at h
      cases hrest : AccessControl.compileRules (n + 1) (some rule.2.2) ds with
      | error e2 =>
        rw [hrest] at h
        cases h
      | ok rest =>
        rw [hrest] at h
        injection h with h2
        subst h2
        obtain ⟨hlen, hval⟩ := ih hrest
        refine ⟨by simp [hlen], ?_⟩
        intro rl hrl m hm
        rcases List.mem_cons.mp hrl with h1 | h2
        · subst h1
          exact compileRule_methods_valid hrule m hm
        · exact hval rl h2 m hm

/-- C3 (amended): compilation fails with an `InvalidRuleDefinition`
carrying the rule's position and raw definition whenever a definition is
missing `endpoint`, missing `methods`, lists a method outside the fixed
vocabulary, or is missing `conditions`; compilation is all-or-nothing (a
successful compile converts every definition, and the `Except` result
means any failure yields no rule set at all); and every rule of a
successfully compiled rule set has its methods drawn from the fixed
vocabulary — but the methods list may be empty: an empty `methods` list
passes validation (the loop over it never runs), refuting the claim's
non-emptiness part. -/
theorem rule_compilation_validation_amended (counter n : Nat) (last last2 : Option Condition)
    (d : RuleDef) (e : String) (ms : List String) (defs : List RuleDef) (rs : Rules) :
    (d.endpoint = none →
      AccessControl.compileRule counter last d =
        .error (.invalidRuleDefinition "Missing endpoint" counter d)) ∧
    (d.endpoint = some e → d.methods = none →
      AccessControl.compileRule counter last d =
        .error (.invalidRuleDefinition "Missing HTTP methods" counter d)) ∧
    (d.endpoint = some e → d.methods = some ms →
      (∃ m ∈ ms, m ∉ AccessControl.VALID_HTTP_METHODS) →
      ∃ m2 ∈ ms, m2 ∉ AccessControl.VALID_HTTP_METHODS ∧
        AccessControl.compileRule counter last d =
          .error (.invalidRuleDefinition ("Not a valid HTTP method \x27" ++ m2 ++ "\x27")
            counter d)) ∧
    (d.endpoint = some e → d.methods = some ms →
      (∀ m ∈ ms, m ∈ AccessControl.VALID_HTTP_METHODS) → d.conditions = none →
      AccessControl.compileRule counter last d =
        .error (.invalidRuleDefinition "Missing conditions or options" counter d)) ∧
    (AccessControl.compileRules n last2 defs = .ok rs →
      rs.length = defs.length ∧
        ∀ rule ∈ rs, ∀ m ∈ rule.2.1, m ∈ AccessControl.VALID_HTTP_METHODS) := by
  refine ⟨?_, ?_, ?_, ?_, compileRules_ok⟩
  · intro h1
    unfold AccessControl.compileRule
    rw [h1]
  · intro h1 h2
    unfold AccessControl.compileRule
    rw [h1, h2]
  · intro h1 h2 hex
    have hsome : (ms.find? (fun m => decide (m ∉ AccessControl.VALID_HTTP_METHODS))).isSome := by
      rw [List.find?_isSome]
      obtain ⟨m, hm, hmv⟩ := hex
      exact ⟨m, hm, by simpa using hmv⟩
    obtain ⟨m2, hfind⟩ := Option.isSome_iff_exists.mp hsome
    have hm2 : m2 ∉ AccessControl.VALID_HTTP_METHODS := by
      have := List.find?_some hfind
      simpa using this
    refine ⟨m2, List.mem_of_find?_eq_some hfind, hm2, ?_⟩
    unfold AccessControl.compileRule
    rw [h1, h2]
    dsimp only
    rw [hfind]
  · intro h1 h2 hall h3
    have hfind : ms.find? (fun m => decide (m ∉ AccessControl.VALID_HTTP_METHODS)) = none := by
      rw [List.find?_eq_none]
      intro m hm
      simpa using hall m hm
    unfold AccessControl.compileRule
    rw [h1, h2]
    dsimp only
    rw [hfind, h3]

/-- C3 counterexample: a rule definition with `methods: []` compiles
successfully, producing a rule whose method set is empty — the claim's
"non-empty methods set" invariant fails. -/
theorem empty_methods_accepted_cex :
    AccessControl.compile
        (some ⟨some [⟨some "orders.*", some [], some [CondDef.Scopes ["read"]]⟩]⟩) =
      Except.ok [("orders.*", [], Condition.Scopes ["read"])] ∧
    ("orders.*", ([] : List String), Condition.Scopes ["read"]).2.1 = [] :=
  ⟨rfl, rfl⟩

/-- C3 witness: the amended claim evaluated concretely — a definition
with no endpoint, one with an unknown method `FETCH`, and a successful
one-rule compile. -/
theorem rule_compilation_validation_amended_witness :
    AccessControl.compileRule 0 none ⟨none, none, none⟩ =
      .error (.invalidRuleDefinition "Missing endpoint" 0 ⟨none, none, none⟩) ∧
    (∃ m2 ∈ ["FETCH"], m2 ∉ AccessControl.VALID_HTTP_METHODS ∧
      AccessControl.compileRule 0 none ⟨some "a", some ["FETCH"], none⟩ =
        .error (.invalidRuleDefinition ("Not a valid HTTP method \x27" ++ m2 ++ "\x27") 0
          ⟨some "a", some ["FETCH"], none⟩)) ∧
    ([("a", ["GET"], Condition.Scopes ["read"])] : Rules).length =
      [(⟨some "a", some ["GET"], some [CondDef.Scopes ["read"]]⟩ : RuleDef)].length := by
  refine ⟨?_, ?_, ?_⟩
  · exact (rule_compilation_validation_amended 0 0 none none ⟨none, none, none⟩ "a" [] [] []).1 rfl
  · exact (rule_compilation_validation_amended 0 0 none none ⟨some "a", some ["FETCH"], none⟩
      "a" ["FETCH"] [] []).2.2.1 rfl rfl ⟨"FETCH", by decide, by decide⟩
  · exact ((rule_compilation_validation_amended 0 0 none none ⟨none, none, none⟩ "a" []
      [⟨some "a", some ["GET"], some [CondDef.Scopes ["read"]]⟩]
      [("a", ["GET"], Condition.Scopes ["read"])]).2.2.2.2 rfl).1

/-- `SABRoles.__init__` raises `KeyError` on some unknown alias whenever
the options contain one. -/
theorem sabRoles_build_error_of_unknown {names : List String}
    (h : ∃ x ∈ names, SABRoles.valid x = none) :
    ∃ x, SABRoles.valid x = none ∧ x ∈ names ∧
      SABRoles.build names = .error (BuildError.keyError x) := by
  induction names with
  | nil => simp at h
  | cons n ns ih =>
    cases hv : SABRoles.valid n with
    | none =>
      refine ⟨n, hv, List.mem_cons_self n ns, ?_⟩
      unfold SABRoles.build
      rw [hv]
    | some role =>
      have h2 : ∃ x ∈ ns, SABRoles.valid x = none := by
        obtain ⟨x, hx, hxv⟩ := h
        rcases List.mem_cons.mp hx with rfl | hx2
        · rw [hv] at hxv
          cases hxv
        · exact ⟨x, hx2, hxv⟩
      obtain ⟨x, hxv, hxm, hb⟩ := ih h2
      refine ⟨x, hxv, List.mem_cons_of_mem n hxm, ?_⟩
      unfold SABRoles.build
      rw [hv, hb]

/-- `Teams.__init__` raises `KeyError` on some unknown alias whenever
the options contain one. -/
theorem teams_build_error_of_unknown {names : List String}
    (h : ∃ x ∈ names, Teams.valid x = none) :
    ∃ x, Teams.valid x = none ∧ x ∈ names ∧
      Teams.build names = .error (BuildError.keyError x) := by
  induction names with
  | nil => simp at h
  | cons n ns ih =>
    cases hv : Teams.valid n with
    | none =>
      refine ⟨n, hv, List.mem_cons_self n ns, ?_⟩
      unfold Teams.build
      rw [hv]
    | some t =>
      have h2 : ∃ x ∈ ns, Teams.valid x = none := by
        obtain ⟨x, hx, hxv⟩ := h
        rcases List.mem_cons.mp hx with rfl | hx2
        · rw [hv] at hxv
          cases hxv
        · exact ⟨x, hx2, hxv⟩
      obtain ⟨x, hxv, hxm, hb⟩ := ih h2
      refine ⟨x, hxv, List.mem_cons_of_mem n hxm, ?_⟩
      unfold Teams.build
      rw [hv, hb]

/-- For a well-formed header and a single condition entry, compilation
reduces to building that condition and wrapping its error, if any. -/
theorem compileRule_single (counter : Nat) (last : Option Condition) (e : String)
    {ms : List String} (hms : ∀ m ∈ ms, m ∈ AccessControl.VALID_HTTP_METHODS) (cd : CondDef) :
    AccessControl.compileRule counter last ⟨some e, some ms, some [cd]⟩ =
      match buildCondition cd with
      | .ok c => .ok (e, ms, c)
      | .error err => .error (wrapBuildError counter ⟨some e, some ms, some [cd]⟩ err) := by
  have hfind : ms.find? (fun m => decide (m ∉ AccessControl.VALID_HTTP_METHODS)) = none := by
    rw [List.find?_eq_none]
    intro m hm
    simpa using hms m hm
  unfold AccessControl.compileRule
  dsimp only
  rw [hfind]
  rfl

/-- C9 counterexample: a role condition with an empty options list
compiles successfully (the set comprehension over an empty list raises
nothing), and an org-code condition with an empty list fails with a raw
`TypeError` — not a structured rule-definition error.  Both refute
"a role/team/scope/org-code condition given an empty list fails
compilation with a structured error". -/
theorem empty_option_list_accepted_cex :
    AccessControl.compileRule 0 none ⟨some "e", some ["GET"], some [CondDef.SABRoles []]⟩ =
      Except.ok ("e", ["GET"], Condition.SABRoles []) ∧
    AccessControl.compileRule 0 none
        ⟨some "e", some ["GET"], some [CondDef.TargetOrganizations []]⟩ =
      Except.error (CompileError.typeError "reduce() of empty iterable with no initial value") :=
  ⟨rfl, rfl⟩

/-- C9 (amended): an `OrganizationGUID` condition whose `where` is
outside `{path, query, json}` or whose `parameter` is absent fails
compilation with a structured `InvalidRuleDefinition`; a role/team
condition containing a name outside the fixed alias table fails the same
way; but an empty options list is *accepted* for role/team/scope
conditions (building a condition that can never test true) and makes the
org-code condition raise an uncaught `TypeError` (from `reduce` over an
empty iterable) rather than a structured error. -/
theorem leaf_condition_validation_amended (counter : Nat) (last : Option Condition)
    (e : String) (ms : List String)
    (hms : ∀ m ∈ ms, m ∈ AccessControl.VALID_HTTP_METHODS)
    (w : String) (pOpt : Option String) (names : List String) :
    (w ∉ OrganizationGUID.valid →
      AccessControl.compileRule counter last
          ⟨some e, some ms, some [CondDef.OrganizationGUID (some w) pOpt]⟩ =
        .error (.invalidRuleDefinition
          ("The \x27where\x27 option should be one of " ++ pyStrSetRepr OrganizationGUID.valid)
          counter ⟨some e, some ms, some [CondDef.OrganizationGUID (some w) pOpt]⟩)) ∧
    (w ∈ OrganizationGUID.valid →
      AccessControl.compileRule counter last
          ⟨some e, some ms, some [CondDef.OrganizationGUID (some w) none]⟩ =
        .error (.invalidRuleDefinition "Missing option \x27parameter\x27." counter
          ⟨some e, some ms, some [CondDef.OrganizationGUID (some w) none]⟩)) ∧
    ((∃ x ∈ names, SABRoles.valid x = none) →
      ∃ x, SABRoles.valid x = none ∧ x ∈ names ∧
        AccessControl.compileRule counter last
            ⟨some e, some ms, some [CondDef.SABRoles names]⟩ =
          .error (.invalidRuleDefinition ("Missing option \x27" ++ x ++ "\x27.") counter
            ⟨some e, some ms, some [CondDef.SABRoles names]⟩)) ∧
    ((∃ x ∈ names, Teams.valid x = none) →
      ∃ x, Teams.valid x = none ∧ x ∈ names ∧
        AccessControl.compileRule counter last
            ⟨some e, some ms, some [CondDef.Teams names]⟩ =
          .error (.invalidRuleDefinition ("Missing option \x27" ++ x ++ "\x27.") counter
            ⟨some e, some ms, some [CondDef.Teams names]⟩)) ∧
    (AccessControl.compileRule counter last ⟨some e, some ms, some [CondDef.SABRoles []]⟩ =
      .ok (e, ms, Condition.SABRoles [])) ∧
    (AccessControl.compileRule counter last ⟨some e, some ms, some [CondDef.Teams []]⟩ =
      .ok (e, ms, Condition.Teams [])) ∧
    (AccessControl.compileRule counter last ⟨some e, some ms, some [CondDef.Scopes []]⟩ =
      .ok (e, ms, Condition.Scopes [])) ∧
    (AccessControl.compileRule counter last
        ⟨some e, some ms, some [CondDef.TargetOrganizations []]⟩ =
      .error (CompileError.typeError "reduce() of empty iterable with no initial value")) := by
  refine ⟨?_, ?_, ?_, ?_, ?_, ?_, ?_, ?_⟩
  · intro hw
    have hb : buildCondition (CondDef.OrganizationGUID (some w) pOpt) =
        .error (.assertionError
          ("The \x27where\x27 option should be one of " ++ pyStrSetRepr OrganizationGUID.valid)) := by
      unfold buildCondition OrganizationGUID.build
      dsimp only
      rw [if_neg hw]
    rw [compileRule_single counter last e hms, hb]
    rfl
  · intro hw
    have hb : buildCondition (CondDef.OrganizationGUID (some w) none) =
        .error (.keyError "parameter") := by
      unfold buildCondition OrganizationGUID.build
      dsimp only
      rw [if_pos hw]
    rw [compileRule_single counter last e hms, hb]
    rfl
  · intro hex
    obtain ⟨x, hxv, hxm, hb⟩ := sabRoles_build_error_of_unknown hex
    refine ⟨x, hxv, hxm, ?_⟩
    have hbc : buildCondition (CondDef.SABRoles names) = .error (BuildError.keyError x) := by
      unfold buildCondition
      rw [hb]
    rw [compileRule_single counter last e hms, hbc]
    rfl
  · intro hex
    obtain ⟨x, hxv, hxm, hb⟩ := teams_build_error_of_unknown hex
    refine ⟨x, hxv, hxm, ?_⟩
    have hbc : buildCondition (CondDef.Teams names) = .error (BuildError.keyError x) := by
      unfold buildCondition
      rw [hb]
    rw [compileRule_single counter last e hms, hbc]
    rfl
  · rw [compileRule_single counter last e hms]
    rfl
  · rw [compileRule_single counter last e hms]
    rfl
  · rw [compileRule_single counter last e hms]
    rfl
  · rw [compileRule_single counter last e hms]
    rfl

/-- C9 witness: the amended claim evaluated concretely — a bad `where`
value, an unknown role alias, and an empty scope list. -/
theorem leaf_condition_validation_amended_witness :
    AccessControl.compileRule 0 none
        ⟨some "e", some ["GET"], some [CondDef.OrganizationGUID (some "body") (some "oid")]⟩ =
      .error (.invalidRuleDefinition
        ("The \x27where\x27 option should be one of " ++ pyStrSetRepr OrganizationGUID.valid)
        0 ⟨some "e", some ["GET"], some [CondDef.OrganizationGUID (some "body") (some "oid")]⟩) ∧
    (∃ x, SABRoles.valid x = none ∧ x ∈ ["nosuchrole"] ∧
      AccessControl.compileRule 0 none
          ⟨some "e", some ["GET"], some [CondDef.SABRoles ["nosuchrole"]]⟩ =
        .error (.invalidRuleDefinition ("Missing option \x27" ++ x ++ "\x27.") 0
          ⟨some "e", some ["GET"], some [CondDef.SABRoles ["nosuchrole"]]⟩)) ∧
    AccessControl.compileRule 0 none ⟨some "e", some ["GET"], some [CondDef.Scopes []]⟩ =
      .ok ("e", ["GET"], Condition.Scopes []) := by
  refine ⟨?_, ?_, ?_⟩
  · exact (leaf_condition_validation_amended 0 none "e" ["GET"] (by decide) "body" (some "oid")
      []).1 (by decide)
  · exact (leaf_condition_validation_amended 0 none "e" ["GET"] (by decide) "body" none
      ["nosuchrole"]).2.2.1 ⟨"nosuchrole", by decide, by rfl⟩
  · exact (leaf_condition_validation_amended 0 none "e" ["GET"] (by decide) "body" none
      []).2.2.2.2.2.2.1
